import Mathlib

/-!
Verification of the go-archiguard architecture-conformance checker.

The definitions below are a shallow embedding of `src/main.go`: strings are
`List Char`, Go maps iterated by `range` are lists (one iteration order),
`map[string]bool` sets are duplicate-free insertion lists, and every
`fmt.Printf` diagnostic is an explicit `LogLine` value.  The doublestar glob
library is external to the repository and is modelled from the spec.
-/

/-- Strings of the Go program, as character lists. -/
abbrev Str := List Char

/-- Embedding of Go `strings.HasPrefix(s, pre)`. -/
def hasPrefixStr : Str → Str → Bool
  | _, [] => true
  | [], _ :: _ => false
  | c :: cs, p :: ps => (c == p) && hasPrefixStr cs ps

/-- Embedding of `matchPattern` (`src/main.go:313-319`): if the pattern
contains `*`, test whether the portion before the first `*`
(`strings.Split(pattern, "*")[0]`) is a prefix of the candidate; otherwise
require exact equality. -/
def matchPattern (path pattern : Str) : Bool :=
  if pattern.contains '*' then
    hasPrefixStr path (pattern.takeWhile (fun c => c != '*'))
  else path == pattern

/-- Embedding of the `DependencyRule` struct (`src/main.go:34-38`). -/
structure DependencyRule where
  From : Str
  To : Str
  Allow : Bool
deriving DecidableEq

/-- Embedding of the `PackageInfo` struct (`src/main.go:40-47`); the two
`map[string]bool` sets become duplicate-free lists. -/
structure PackageInfo where
  Path : Str
  Module : Str
  Layer : Str
  Imports : List Str
  LayerDeps : List Str
  ExternalDeps : List Str
deriving DecidableEq

/-- One declared layer of the configuration: a name and its glob patterns
(`Config.Layers`, `src/main.go:25,30-32`); the Go map is embedded as a list
in one arbitrary iteration order. -/
structure LayerEntry where
  name : Str
  paths : List Str
deriving DecidableEq

/-- The diagnostic lines printed by the program, one constructor per
`fmt.Printf` format in `src/main.go`. -/
inductive LogLine where
  | debugLayer (pkg layer : Str)
  | warnUnknownPkg (pkg : Str)
  | warnImportsUnknown (importer imported : Str)
  | debugLayerDeps (pkg pkgLayer depLayer : Str)
  | layerViolation (pkg pkgLayer depLayer : Str)
  | externalViolation (pkg pkgLayer extPkg : Str)
deriving DecidableEq

/-- The reserved layer name `root` (`src/main.go:19`). -/
def layerRoot : Str := "root".toList

/-- The reserved layer name `unknown` (`src/main.go:20`). -/
def layerUnknown : Str := "unknown".toList

/-- Modelled from the spec: one path segment of the full-glob dialect
(§4.1), `*` matching any run of characters within the segment.  The
doublestar library implementing this is external to the repository. -/
def segMatch : List Char → List Char → Bool
  | [], cs => cs.isEmpty
  | '*' :: ps, cs => cs.tails.any (fun suf => segMatch ps suf)
  | _ :: _, [] => false
  | p :: ps, c :: cs => (p == c) && segMatch ps cs

/-- Modelled from the spec: full-glob matching over slash-separated
segments (§4.1), a `**` segment matching any run of segments, including
zero. -/
def globMatch : List (List Char) → List (List Char) → Bool
  | [], cs => cs.isEmpty
  | p :: ps, cs =>
    if p == ['*', '*'] then cs.tails.any (fun suf => globMatch ps suf)
    else
      match cs with
      | [] => false
      | c :: cs => segMatch p c && globMatch ps cs

/-- Modelled from the spec: `doublestar.Match(pattern, candidate)` — the
full-glob dialect of §4.1, anchored and case-sensitive, over
slash-separated paths.  The library's source is not part of this
repository. -/
def doublestarMatch (pattern candidate : Str) : Bool :=
  globMatch (pattern.splitOn '/') (candidate.splitOn '/')

/-- The per-layer test of `getLayerForPackage`'s inner loop
(`src/main.go:297-302`): does any of the layer's glob patterns match the
package path handed to `doublestar.Match`? -/
def layerPathsMatch (pkgPath : Str) (l : LayerEntry) : Bool :=
  l.paths.any (fun p => doublestarMatch p pkgPath)

/-- The outer loop of `getLayerForPackage` (`src/main.go:296-303`): scan
the layers in iteration order and return the first one with a matching
pattern. -/
def findLayerMatch : List LayerEntry → Str → Option LayerEntry
  | [], _ => none
  | l :: ls, pkgPath =>
    if layerPathsMatch pkgPath l then some l else findLayerMatch ls pkgPath

/-- Embedding of `getLayerForPackage` (`src/main.go:294-310`): the glob
patterns are tested against `pkgPath` (the module-qualified package path,
`filepath.ToSlash(pkgPath)`); `relPath` is consulted only for the
module-root fallback (`relPath == "."`).  Returns the layer name together
with the printed diagnostics. -/
def getLayerForPackage (pkgPath relPath : Str) (layers : List LayerEntry) :
    Str × List LogLine :=
  match findLayerMatch layers pkgPath with
  | some l => (l.name, [LogLine.debugLayer pkgPath l.name])
  | none =>
    if relPath == ".".toList then (layerRoot, [])
    else (layerUnknown, [LogLine.warnUnknownPkg pkgPath])

/-- Modelled from the spec: the Layer Classifier as §4.2 words it —
"test the unit's module-relative path against each of the layer's glob
patterns".  It differs from the source's `getLayerForPackage` only in
matching against `relPath` instead of `pkgPath`; it exists solely to be
compared with the source translation. -/
def getLayerForPackageSpecRel (pkgPath relPath : Str)
    (layers : List LayerEntry) : Str × List LogLine :=
  match findLayerMatch layers relPath with
  | some l => (l.name, [LogLine.debugLayer pkgPath l.name])
  | none =>
    if relPath == ".".toList then (layerRoot, [])
    else (layerUnknown, [LogLine.warnUnknownPkg pkgPath])

/-- Set insertion for the embedded `map[string]bool` sets: a `m[k] = true`
assignment adds the key when absent. -/
def insertDep (x : Str) (s : List Str) : List Str :=
  if s.contains x then s else s ++ [x]

/-- The `isExternal` scan of `analyzePackages` (`src/main.go:162-168`): an
imported path is external when no discovered module prefix is a prefix
of it. -/
def isExternalImport (modulePrefixes : List Str) (imp : Str) : Bool :=
  !(modulePrefixes.any (fun m => hasPrefixStr imp m))

/-- The loop body of `analyzePackages` for one import
(`src/main.go:160-182`): external imports go verbatim to `ExternalDeps`;
internal imports found in the package table contribute the found package's
layer to `LayerDeps` (warning when that layer is `unknown`); and internal
ones not found are dropped silently. -/
def processImport (packages : List PackageInfo) (modulePrefixes : List Str)
    (pkg : PackageInfo) (imp : Str) : PackageInfo × List LogLine :=
  if isExternalImport modulePrefixes imp then
    ({ pkg with ExternalDeps := insertDep imp pkg.ExternalDeps }, [])
  else
    match packages.find? (fun q => q.Path == imp) with
    | some impPkg =>
      ({ pkg with LayerDeps := insertDep impPkg.Layer pkg.LayerDeps },
       if impPkg.Layer == layerUnknown then
         [LogLine.warnImportsUnknown pkg.Path impPkg.Path]
       else [])
    | none => (pkg, [])

/-- The per-package import loop of `analyzePackages` (`src/main.go:160`). -/
def analyzePkg (packages : List PackageInfo) (modulePrefixes : List Str) :
    PackageInfo → List Str → PackageInfo × List LogLine
  | pkg, [] => (pkg, [])
  | pkg, imp :: imps =>
    let step := processImport packages modulePrefixes pkg imp
    let rest := analyzePkg packages modulePrefixes step.1 imps
    (rest.1, step.2 ++ rest.2)

/-- The module-prefix collection of `analyzePackages`
(`src/main.go:153-157`). -/
def collectModulePrefixes (packages : List PackageInfo) : List Str :=
  packages.foldl (fun acc pkg => insertDep pkg.Module acc) []

/-- Embedding of `analyzePackages` (`src/main.go:152-184`): build the
module-prefix set, then partition every package's imports.  Package lookups
read only the immutable `Path` and `Layer` fields, so resolving them
against the input table is faithful to the in-place Go version. -/
def analyzePackages (packages : List PackageInfo) :
    List PackageInfo × List LogLine :=
  let prefixes := collectModulePrefixes packages
  (packages.map (fun pkg => (analyzePkg packages prefixes pkg pkg.Imports).1),
   packages.flatMap (fun pkg => (analyzePkg packages prefixes pkg pkg.Imports).2))

/-- The inner rule loop of `checkDependencies` for one layer edge
(`src/main.go:191-199`): first matching rule wins (`break`), and only a
matching rule with `Allow = false` emits a LAYER VIOLATION line. -/
def checkLayerDep (path pkgLayer depLayer : Str) :
    List DependencyRule → List LogLine
  | [] => []
  | r :: rs =>
    if matchPattern pkgLayer r.From && matchPattern depLayer r.To then
      if r.Allow then [] else [LogLine.layerViolation path pkgLayer depLayer]
    else checkLayerDep path pkgLayer depLayer rs

/-- The inner rule loop of `checkDependencies` for one external dependency
(`src/main.go:204-213`). -/
def checkExternalDep (path pkgLayer extPkg : Str) :
    List DependencyRule → List LogLine
  | [] => []
  | r :: rs =>
    if matchPattern pkgLayer r.From && matchPattern extPkg r.To then
      if r.Allow then [] else [LogLine.externalViolation path pkgLayer extPkg]
    else checkExternalDep path pkgLayer extPkg rs

/-- The body of `checkDependencies` for one package
(`src/main.go:189-216`): every layer edge is checked against the rules and
then traced with a debug line; every external dependency is checked the
same way.  The package record is threaded through untouched, as the Go body
only reads it. -/
def checkPkg (rules : List DependencyRule) (pkg : PackageInfo) :
    PackageInfo × List LogLine :=
  (pkg,
   pkg.LayerDeps.flatMap (fun layer =>
     checkLayerDep pkg.Path pkg.Layer layer rules ++
       [LogLine.debugLayerDeps pkg.Path pkg.Layer layer]) ++
   pkg.ExternalDeps.flatMap (fun extPkg =>
     checkExternalDep pkg.Path pkg.Layer extPkg rules))

/-- Embedding of `checkDependencies` (`src/main.go:187-217`), with the
package table passed through explicitly as state. -/
def checkDependencies (rules : List DependencyRule) :
    List PackageInfo → List PackageInfo × List LogLine
  | [] => ([], [])
  | pkg :: pkgs =>
    let step := checkPkg rules pkg
    let rest := checkDependencies rules pkgs
    (step.1 :: rest.1, step.2 ++ rest.2)

/-- The default of the `config` CLI flag (`src/main.go:51`). -/
def defaultConfigPath : Str := "config.yaml".toList

/-- Flag resolution of `main` (`src/main.go:50-52`): `project-root`
defaults to the empty string, `config` to `config.yaml`; `none` models an
omitted flag. -/
def resolveFlags (projectRoot configPath : Option Str) : Str × Str :=
  (projectRoot.getD [], configPath.getD defaultConfigPath)

/-- The usage guard of `main` (`src/main.go:54-56`): `log.Fatal` (non-zero
exit before any analysis) fires exactly when either resolved flag value is
empty. -/
def flagsFatal (flags : Str × Str) : Bool :=
  flags.1 == [] || flags.2 == []

/-- The rule list of the first-match example: layer `domain` may depend on
`domain`, and on nothing else. -/
def demoRules : List DependencyRule :=
  [⟨"domain".toList, "domain".toList, true⟩,
   ⟨"domain".toList, "*".toList, false⟩]

/-- A configuration with one layer whose single pattern is the literal
module-relative path `domain`. -/
def layersC3 : List LayerEntry := [⟨"domain".toList, ["domain".toList]⟩]

/-- A configuration with one layer whose single pattern is the literal
module-qualified path `m/domain`. -/
def layersW : List LayerEntry := [⟨"domain".toList, ["m/domain".toList]⟩]

/-- A layer entry matching only the package `m/domain`. -/
def layerA : LayerEntry := ⟨"domain".toList, ["m/domain".toList]⟩

/-- A layer entry matching only the package `m/app`. -/
def layerB : LayerEntry := ⟨"application".toList, ["m/app".toList]⟩

/-- A two-package project: `m/domain` imports an internal package, an
external package, and an internal-looking package the walk never found. -/
def packagesDemo : List PackageInfo :=
  [⟨"m/a".toList, "m".toList, "domain".toList,
    ["m/b".toList, "external.org/x".toList, "m/ghost".toList], [], []⟩,
   ⟨"m/b".toList, "m".toList, "application".toList, [], [], []⟩]

/-- The first package of `packagesDemo` after graph building: its internal
imported path contributed a layer edge, the external one an external
edge, and the unresolved one nothing. -/
def pkgAOut : PackageInfo :=
  ⟨"m/a".toList, "m".toList, "domain".toList,
   ["m/b".toList, "external.org/x".toList, "m/ghost".toList],
   ["application".toList], ["external.org/x".toList]⟩

/-- A blank package record. -/
def emptyPkg : PackageInfo := ⟨[], [], [], [], [], []⟩

/-- `hasPrefixStr` with an empty prefix always succeeds. -/
theorem hasPrefixStr_nil (s : Str) : hasPrefixStr s [] = true := by
  cases s <;> rfl

/-- `hasPrefixStr s pre` holds exactly when `s` extends `pre`. -/
theorem hasPrefixStr_iff (s pre : Str) :
    hasPrefixStr s pre = true ↔ ∃ rest, s = pre ++ rest := by
  induction pre generalizing s with
  | nil => simp [hasPrefixStr_nil]
  | cons p ps ih =>
    cases s with
    | nil => simp [hasPrefixStr]
    | cons c cs =>
      simp only [hasPrefixStr, Bool.and_eq_true, beq_iff_eq, ih,
        List.cons_append, List.cons.injEq]
      constructor
      · rintro ⟨rfl, rest, rfl⟩
        exact ⟨rest, rfl, rfl⟩
      · rintro ⟨rest, rfl, rfl⟩
        exact ⟨rfl, rest, rfl⟩

/-- Membership in the embedded set insertion. -/
theorem insertDep_mem (x y : Str) (s : List Str) :
    x ∈ insertDep y s ↔ x = y ∨ x ∈ s := by
  unfold insertDep
  by_cases h : s.contains y
  · have hy : y ∈ s := by simpa using h
    simp only [if_pos h]
    constructor
    · exact Or.inr
    · rintro (rfl | hx)
      · exact hy
      · exact hx
  · simp only [if_neg h, List.mem_append, List.mem_singleton]
    tauto

/-- The rule loop of `checkLayerDep` is governed by the first matching
rule: it emits a violation exactly when `List.find?` over the rule list
returns a denying rule. -/
theorem checkLayerDep_eq_find (path f t : Str) (rules : List DependencyRule) :
    checkLayerDep path f t rules =
      match rules.find? (fun r => matchPattern f r.From && matchPattern t r.To) with
      | some r => if r.Allow then [] else [LogLine.layerViolation path f t]
      | none => [] := by
  induction rules with
  | nil => rfl
  | cons r rs ih =>
    cases hc : matchPattern f r.From && matchPattern t r.To with
    | true => simp [checkLayerDep, List.find?_cons, hc]
    | false => simp [checkLayerDep, List.find?_cons, hc, ih]

/-- Same statement for the external-dependency rule loop. -/
theorem checkExternalDep_eq_find (path f e : Str) (rules : List DependencyRule) :
    checkExternalDep path f e rules =
      match rules.find? (fun r => matchPattern f r.From && matchPattern e r.To) with
      | some r => if r.Allow then [] else [LogLine.externalViolation path f e]
      | none => [] := by
  induction rules with
  | nil => rfl
  | cons r rs ih =>
    cases hc : matchPattern f r.From && matchPattern e r.To with
    | true => simp [checkExternalDep, List.find?_cons, hc]
    | false => simp [checkExternalDep, List.find?_cons, hc, ih]

/-- The external-dependency loop never emits a layer-violation line. -/
theorem layerViolation_not_mem_checkExternalDep (a b c path pkgLayer extPkg : Str)
    (rules : List DependencyRule) :
    LogLine.layerViolation a b c ∉ checkExternalDep path pkgLayer extPkg rules := by
  induction rules with
  | nil => simp [checkExternalDep]
  | cons r rs ih =>
    simp only [checkExternalDep]
    split
    · split <;> simp
    · exact ih

/-- The layer scan of `getLayerForPackage` is `List.find?` over the
configured layers. -/
theorem findLayerMatch_eq_find (ls : List LayerEntry) (pkgPath : Str) :
    findLayerMatch ls pkgPath = ls.find? (fun l => layerPathsMatch pkgPath l) := by
  induction ls with
  | nil => rfl
  | cons l ls ih =>
    cases hc : layerPathsMatch pkgPath l <;>
      simp [findLayerMatch, List.find?_cons, hc, ih]

/-- `processImport` never rewrites the import list. -/
theorem processImport_Imports (P : List PackageInfo) (pre : List Str)
    (pkg : PackageInfo) (imp : Str) :
    ((processImport P pre pkg imp).1).Imports = pkg.Imports := by
  unfold processImport
  split
  · rfl
  · split <;> rfl

/-- `analyzePkg` never rewrites the import list. -/
theorem analyzePkg_Imports (P : List PackageInfo) (pre : List Str)
    (imps : List Str) (pkg : PackageInfo) :
    ((analyzePkg P pre pkg imps).1).Imports = pkg.Imports := by
  induction imps generalizing pkg with
  | nil => rfl
  | cons imp imps ih =>
    simp only [analyzePkg]
    rw [ih, processImport_Imports]

/-- Effect of one import on the external-dependency set: exactly the
external imports are inserted. -/
theorem processImport_externalDeps_mem (P : List PackageInfo) (pre : List Str)
    (pkg : PackageInfo) (imp : Str) (x : Str) :
    x ∈ ((processImport P pre pkg imp).1).ExternalDeps ↔
      x ∈ pkg.ExternalDeps ∨ (x = imp ∧ isExternalImport pre imp = true) := by
  unfold processImport
  split
  next he =>
    show x ∈ insertDep imp pkg.ExternalDeps ↔ _
    rw [insertDep_mem]
    simp only [he, and_true]
    tauto
  next he =>
    have he' : isExternalImport pre imp = false := by
      cases h : isExternalImport pre imp
      · rfl
      · exact absurd h he
    cases hf : P.find? (fun q => q.Path == imp) with
    | some q =>
      show x ∈ pkg.ExternalDeps ↔ _
      simp [he']
    | none =>
      show x ∈ pkg.ExternalDeps ↔ _
      simp [he']

/-- Effect of one import on the layer-dependency set: exactly the layers
of resolved internal imports are inserted. -/
theorem processImport_layerDeps_mem (P : List PackageInfo) (pre : List Str)
    (pkg : PackageInfo) (imp : Str) (L : Str) :
    L ∈ ((processImport P pre pkg imp).1).LayerDeps ↔
      L ∈ pkg.LayerDeps ∨
        (isExternalImport pre imp = false ∧
          ∃ q, P.find? (fun v => v.Path == imp) = some q ∧ q.Layer = L) := by
  unfold processImport
  split
  next he =>
    have he' : isExternalImport pre imp = true := he
    show L ∈ pkg.LayerDeps ↔ _
    simp [he']
  next he =>
    have he' : isExternalImport pre imp = false := by
      cases h : isExternalImport pre imp
      · rfl
      · exact absurd h he
    cases hf : P.find? (fun q => q.Path == imp) with
    | some q =>
      show L ∈ insertDep q.Layer pkg.LayerDeps ↔ _
      rw [insertDep_mem]
      constructor
      · rintro (rfl | h)
        · exact Or.inr ⟨he', q, rfl, rfl⟩
        · exact Or.inl h
      · rintro (h | ⟨-, q', hq', rfl⟩)
        · exact Or.inr h
        · injection hq' with h
          exact Or.inl (congrArg PackageInfo.Layer h.symm)
    | none =>
      show L ∈ pkg.LayerDeps ↔ _
      simp

/-- The external-dependency set after the import loop: the initial set
plus every external import, and nothing else. -/
theorem analyzePkg_externalDeps_mem (P : List PackageInfo) (pre : List Str)
    (imps : List Str) (pkg : PackageInfo) (x : Str) :
    x ∈ ((analyzePkg P pre pkg imps).1).ExternalDeps ↔
      x ∈ pkg.ExternalDeps ∨ (x ∈ imps ∧ isExternalImport pre x = true) := by
  induction imps generalizing pkg with
  | nil => simp [analyzePkg]
  | cons imp imps ih =>
    simp only [analyzePkg]
    rw [ih, processImport_externalDeps_mem]
    constructor
    · rintro ((h | ⟨rfl, he⟩) | ⟨hm, he⟩)
      · exact Or.inl h
      · exact Or.inr ⟨List.mem_cons_self _ _, he⟩
      · exact Or.inr ⟨List.mem_cons_of_mem _ hm, he⟩
    · rintro (h | ⟨hm, he⟩)
      · exact Or.inl (Or.inl h)
      · rcases List.mem_cons.mp hm with rfl | hm'
        · exact Or.inl (Or.inr ⟨rfl, he⟩)
        · exact Or.inr ⟨hm', he⟩

/-- The layer-dependency set after the import loop: the initial set plus
the layer of every resolved internal import, and nothing else. -/
theorem analyzePkg_layerDeps_mem (P : List PackageInfo) (pre : List Str)
    (imps : List Str) (pkg : PackageInfo) (L : Str) :
    L ∈ ((analyzePkg P pre pkg imps).1).LayerDeps ↔
      L ∈ pkg.LayerDeps ∨
        ∃ imp, imp ∈ imps ∧ isExternalImport pre imp = false ∧
          ∃ q, P.find? (fun v => v.Path == imp) = some q ∧ q.Layer = L := by
  induction imps generalizing pkg with
  | nil => simp [analyzePkg]
  | cons imp imps ih =>
    simp only [analyzePkg]
    rw [ih, processImport_layerDeps_mem]
    constructor
    · rintro ((h | ⟨he, hq⟩) | ⟨imp', hm, he, hq⟩)
      · exact Or.inl h
      · exact Or.inr ⟨imp, List.mem_cons_self _ _, he, hq⟩
      · exact Or.inr ⟨imp', List.mem_cons_of_mem _ hm, he, hq⟩
    · rintro (h | ⟨imp', hm, he, hq⟩)
      · exact Or.inl (Or.inl h)
      · rcases List.mem_cons.mp hm with rfl | hm'
        · exact Or.inl (Or.inr ⟨he, hq⟩)
        · exact Or.inr ⟨imp', hm', he, hq⟩

/-- C1: For every unit and every layer name in its layer-dependency set, the
rule evaluator emits a LAYER_VIOLATION naming the unit, its layer and the
dependency layer exactly when the first rule (in declaration order) whose
`From` matches the unit's layer and whose `To` matches the dependency layer
has `allow = false`; when the first matching rule allows the edge, or no
rule matches, no violation is emitted.  Under the rules
`[(domain,domain,allow=true), (domain,*,allow=false)]`, a domain→domain
edge produces no violation and a domain→application edge produces one. -/
theorem c1_rule_evaluator_first_match :
    (∀ (pkg : PackageInfo) (rules : List DependencyRule) (t : Str),
      LogLine.layerViolation pkg.Path pkg.Layer t ∈ (checkPkg rules pkg).2 ↔
        t ∈ pkg.LayerDeps ∧
          ∃ r, rules.find?
              (fun r => matchPattern pkg.Layer r.From && matchPattern t r.To) =
                some r ∧ r.Allow = false) ∧
    checkLayerDep "m/d".toList "domain".toList "domain".toList demoRules = [] ∧
    checkLayerDep "m/d".toList "domain".toList "application".toList demoRules =
      [LogLine.layerViolation "m/d".toList "domain".toList "application".toList] := by
  refine ⟨?_, by decide, by decide⟩
  intro pkg rules t
  simp only [checkPkg, List.mem_append, List.mem_flatMap]
  constructor
  · rintro (⟨t', ht', hv | hd⟩ | ⟨e, he, hmem⟩)
    · rw [checkLayerDep_eq_find] at hv
      rcases hf : rules.find?
          (fun r => matchPattern pkg.Layer r.From && matchPattern t' r.To) with _ | r
      · rw [hf] at hv
        simp at hv
      · rw [hf] at hv
        have hv' : LogLine.layerViolation pkg.Path pkg.Layer t ∈
            (if r.Allow = true then ([] : List LogLine)
             else [LogLine.layerViolation pkg.Path pkg.Layer t']) := hv
        by_cases ha : r.Allow
        · simp [ha] at hv'
        · rw [if_neg ha, List.mem_singleton] at hv'
          obtain ⟨-, -, rfl⟩ := LogLine.layerViolation.inj hv'
          exact ⟨ht', r, hf, by simpa using ha⟩
    · simp at hd
    · exact absurd hmem
        (layerViolation_not_mem_checkExternalDep _ _ _ _ _ _ _)
  · rintro ⟨ht, r, hf, ha⟩
    refine Or.inl ⟨t, ht, Or.inl ?_⟩
    rw [checkLayerDep_eq_find, hf]
    simp [ha]

/-- C2: `matchPattern` requires exact equality when the pattern has no
`*`, and otherwise tests only that the portion of the pattern before its
first `*` is a prefix of the candidate, ignoring the remainder of the
pattern; in particular `matchPattern "application" "app*"` is true. -/
theorem c2_matchPattern_prefix_or_exact :
    (∀ c p : Str,
      matchPattern c p = true ↔
        if p.contains '*' = true then
          ∃ rest, c = p.takeWhile (fun ch => ch != '*') ++ rest
        else c = p) ∧
    matchPattern "application".toList "app*".toList = true := by
  refine ⟨?_, by decide⟩
  intro c p
  unfold matchPattern
  cases hc : p.contains '*' with
  | true => simp only [hc, hasPrefixStr_iff, if_true, beq_iff_eq]
  | false => simp only [hc, Bool.false_eq_true, if_false, beq_iff_eq]

/-- C9: every pattern beginning with `*` matches every candidate string,
the empty string included; consequently a dependency rule whose `From` and
`To` are the single character `*` governs every layer edge and every
external dependency that reaches it, its verdict decided by its `allow`
flag alone. -/
theorem c9_star_pattern_matches_everything :
    (∀ c rest : Str, matchPattern c ('*' :: rest) = true) ∧
    (∀ (path f t : Str) (a : Bool) (rs : List DependencyRule),
      checkLayerDep path f t (⟨"*".toList, "*".toList, a⟩ :: rs) =
        if a then [] else [LogLine.layerViolation path f t]) ∧
    (∀ (path f e : Str) (a : Bool) (rs : List DependencyRule),
      checkExternalDep path f e (⟨"*".toList, "*".toList, a⟩ :: rs) =
        if a then [] else [LogLine.externalViolation path f e]) := by
  have h1 : ∀ c rest : Str, matchPattern c ('*' :: rest) = true := by
    intro c rest
    unfold matchPattern
    rw [if_pos (by simp)]
    have ht : List.takeWhile (fun ch => ch != '*') ('*' :: rest) = [] := by
      simp [List.takeWhile_cons]
    rw [ht, hasPrefixStr_nil]
  have hstar : ∀ s : Str, matchPattern s ['*'] = true := fun s => h1 s []
  refine ⟨h1, ?_, ?_⟩
  · intro path f t a rs
    simp [checkLayerDep, hstar]
  · intro path f e a rs
    simp [checkExternalDep, hstar]

/-- C10: rule evaluation is read-only over the unit table — the package
records that come out of `checkDependencies` are exactly the ones that went
in, whatever rules are configured and whatever verdicts are emitted. -/
theorem c10_checkDependencies_read_only
    (rules : List DependencyRule) (pkgs : List PackageInfo) :
    (checkDependencies rules pkgs).1 = pkgs := by
  induction pkgs with
  | nil => rfl
  | cons p ps ih => simp [checkDependencies, checkPkg, ih]

/-- C3 counterexample: with a layer whose pattern is the literal
module-relative path `domain`, a unit with module-qualified path
`m/domain` and module-relative path `domain` is classified `unknown` by
the source's classifier, while the spec's wording (matching the
module-relative path) would classify it `domain` — so the classifier does
not test the module-relative path. -/
theorem c3_counterexample :
    (getLayerForPackage "m/domain".toList "domain".toList layersC3).1 =
        layerUnknown ∧
    (getLayerForPackageSpecRel "m/domain".toList "domain".toList layersC3).1 =
        "domain".toList ∧
    layerUnknown ≠ "domain".toList := by
  refine ⟨by decide, by decide, by decide⟩

/-- C3 (amended): the Layer Classifier tests the unit's module-qualified
package path (`modulePrefix + "/" + relativePath`) — not its
module-relative path — against each configured layer's glob patterns, and
returns the name of the first layer (in iteration order) with a matching
pattern. -/
theorem c3_classifier_first_match_on_qualified_path
    (pkgPath relPath : Str) (layers : List LayerEntry) (l : LayerEntry)
    (h : layers.find? (fun e => layerPathsMatch pkgPath e) = some l) :
    (getLayerForPackage pkgPath relPath layers).1 = l.name := by
  unfold getLayerForPackage
  rw [findLayerMatch_eq_find, h]

/-- C3 witness: a layer whose pattern is the module-qualified path is the
first match and names the classification. -/
theorem c3_witness :
    layersW.find? (fun e => layerPathsMatch "m/domain".toList e) =
        some ⟨"domain".toList, ["m/domain".toList]⟩ ∧
    (getLayerForPackage "m/domain".toList "domain".toList layersW).1 =
        "domain".toList :=
  ⟨by decide,
   c3_classifier_first_match_on_qualified_path "m/domain".toList
     "domain".toList layersW ⟨"domain".toList, ["m/domain".toList]⟩ (by decide)⟩

/-- C4: when no declared layer pattern matches the unit, classification
returns the reserved layer `root` if the module-relative path denotes the
module root (the `.` produced by `filepath.Rel`), and otherwise returns
the reserved layer `unknown` together with a non-fatal warning naming the
unit. -/
theorem c4_root_unknown_fallback (pkgPath relPath : Str)
    (layers : List LayerEntry)
    (h : ∀ l ∈ layers, layerPathsMatch pkgPath l = false) :
    getLayerForPackage pkgPath relPath layers =
      if relPath = ".".toList then (layerRoot, [])
      else (layerUnknown, [LogLine.warnUnknownPkg pkgPath]) := by
  unfold getLayerForPackage
  rw [findLayerMatch_eq_find]
  have hnone : layers.find? (fun e => layerPathsMatch pkgPath e) = none :=
    List.find?_eq_none.mpr (fun a ha => by simp [h a ha])
  rw [hnone]
  by_cases hr : relPath = ".".toList
  · simp [hr]
  · simp [hr]

/-- C4 witness: with no layers configured, the unit at the module root
classifies as `root` silently, and a non-root unit classifies as `unknown`
with a warning naming it. -/
theorem c4_witness :
    ((∀ l ∈ ([] : List LayerEntry), layerPathsMatch "m/x".toList l = false) ∧
      getLayerForPackage "m/x".toList "x".toList [] =
        (if ("x".toList : Str) = ".".toList then (layerRoot, [])
         else (layerUnknown, [LogLine.warnUnknownPkg "m/x".toList]))) ∧
    (∀ l ∈ ([] : List LayerEntry), layerPathsMatch "m".toList l = false) ∧
    getLayerForPackage "m".toList ".".toList [] =
      (if (".".toList : Str) = ".".toList then (layerRoot, [])
       else (layerUnknown, [LogLine.warnUnknownPkg "m".toList])) :=
  ⟨⟨by simp, c4_root_unknown_fallback "m/x".toList "x".toList [] (by simp)⟩,
   by simp, c4_root_unknown_fallback "m".toList ".".toList [] (by simp)⟩

/-- C5: after graph building, each raw import contributed to at most one
derived set — a unit's external-dependency set holds exactly its imports
that start with no discovered module prefix, and every member of its
layer-dependency set is the layer of a resolved import that does start
with a discovered module prefix. -/
theorem c5_import_partition_disjoint (packages : List PackageInfo)
    (u : PackageInfo)
    (hinit : ∀ p ∈ packages, p.ExternalDeps = [] ∧ p.LayerDeps = [])
    (hu : u ∈ (analyzePackages packages).1) :
    (∀ x, x ∈ u.ExternalDeps ↔
        x ∈ u.Imports ∧
          isExternalImport (collectModulePrefixes packages) x = true) ∧
    (∀ L, L ∈ u.LayerDeps →
        ∃ imp, imp ∈ u.Imports ∧
          isExternalImport (collectModulePrefixes packages) imp = false ∧
          ∃ q, packages.find? (fun v => v.Path == imp) = some q ∧
            q.Layer = L) := by
  simp only [analyzePackages, List.mem_map] at hu
  obtain ⟨pkg, hpkg, rfl⟩ := hu
  obtain ⟨hext, hlay⟩ := hinit pkg hpkg
  constructor
  · intro x
    rw [analyzePkg_externalDeps_mem, analyzePkg_Imports, hext]
    simp
  · intro L hL
    rw [analyzePkg_layerDeps_mem, hlay] at hL
    rw [analyzePkg_Imports]
    simpa using hL

/-- C5 witness: in the two-package demo project the analyzed first unit
has the stated partition of its three imports. -/
theorem c5_witness :
    ((∀ p ∈ packagesDemo, p.ExternalDeps = [] ∧ p.LayerDeps = []) ∧
      pkgAOut ∈ (analyzePackages packagesDemo).1) ∧
    (∀ x, x ∈ pkgAOut.ExternalDeps ↔
        x ∈ pkgAOut.Imports ∧
          isExternalImport (collectModulePrefixes packagesDemo) x = true) ∧
    (∀ L, L ∈ pkgAOut.LayerDeps →
        ∃ imp, imp ∈ pkgAOut.Imports ∧
          isExternalImport (collectModulePrefixes packagesDemo) imp = false ∧
          ∃ q, packagesDemo.find? (fun v => v.Path == imp) = some q ∧
            q.Layer = L) :=
  ⟨⟨by decide, by decide⟩,
   c5_import_partition_disjoint packagesDemo pkgAOut (by decide) (by decide)⟩

/-- C6: an import that starts with a known module prefix but is not the
identity of any discovered unit records no dependency edge of any kind and
emits no diagnostic — the loop body returns the unit untouched with no
output. -/
theorem c6_internal_unresolved_dropped (packages : List PackageInfo)
    (modulePrefixes : List Str) (pkg : PackageInfo) (imp : Str)
    (hint : isExternalImport modulePrefixes imp = false)
    (hmiss : packages.find? (fun q => q.Path == imp) = none) :
    processImport packages modulePrefixes pkg imp = (pkg, []) := by
  unfold processImport
  rw [hint, hmiss]
  simp

/-- C6 witness: the import `m/gone` matches the module prefix `m` but no
discovered unit, and is dropped without effect or diagnostic. -/
theorem c6_witness :
    (isExternalImport ["m".toList] "m/gone".toList = false ∧
      List.find? (fun q => q.Path == "m/gone".toList) packagesDemo = none) ∧
    processImport packagesDemo ["m".toList] emptyPkg "m/gone".toList =
      (emptyPkg, []) :=
  ⟨⟨by decide, by decide⟩,
   c6_internal_unresolved_dropped packagesDemo ["m".toList] emptyPkg
     "m/gone".toList (by decide) (by decide)⟩

/-- C7 counterexample: supplying only the project-root flag does not
abort, because the config flag has the non-empty default `config.yaml` —
so the configuration-file flag is not a required flag as the claim
states. -/
theorem c7_counterexample :
    flagsFatal (resolveFlags (some "p".toList) none) = false ∧
    defaultConfigPath ≠ [] := by
  refine ⟨by decide, by decide⟩

/-- C7 (amended): the CLI takes a project-root flag whose default is the
empty string and a config flag whose default is `config.yaml`; when no
flags are supplied the program aborts with a fatal usage error (non-zero
exit, before any analysis) because the project-root is empty; omitting
only the config flag proceeds, and the fatal guard fires exactly when a
resolved flag value is empty. -/
theorem c7_project_root_required :
    flagsFatal (resolveFlags none none) = true ∧
    (∀ cp, flagsFatal (resolveFlags none cp) = true) ∧
    (∀ pr, flagsFatal (resolveFlags (some pr) none) = (pr == [])) ∧
    (∀ pr cp, flagsFatal (resolveFlags (some pr) (some cp)) =
      (pr == [] || cp == [])) := by
  have hdef : (defaultConfigPath == ([] : Str)) = false := by decide
  refine ⟨by decide, ?_, ?_, ?_⟩
  · intro cp
    cases cp <;> simp [flagsFatal, resolveFlags]
  · intro pr
    simp [flagsFatal, resolveFlags, hdef]
  · intro pr cp
    rfl

/-- C8: classification is deterministic for any unit matching patterns in
at most one configured layer — two runs over any two iteration orders of
the same layer map return the same layer name. -/
theorem c8_classification_deterministic (pkgPath relPath : Str)
    (l₁ l₂ : List LayerEntry) (hperm : l₁.Perm l₂)
    (huniq : ∀ a ∈ l₁, ∀ b ∈ l₁, layerPathsMatch pkgPath a = true →
      layerPathsMatch pkgPath b = true → a = b) :
    (getLayerForPackage pkgPath relPath l₁).1 =
      (getLayerForPackage pkgPath relPath l₂).1 := by
  unfold getLayerForPackage
  rw [findLayerMatch_eq_find, findLayerMatch_eq_find]
  rcases h₁ : l₁.find? (fun e => layerPathsMatch pkgPath e) with _ | a
  · have hnone : l₂.find? (fun e => layerPathsMatch pkgPath e) = none :=
      List.find?_eq_none.mpr
        (fun x hx => List.find?_eq_none.mp h₁ x (hperm.mem_iff.mpr hx))
    rw [hnone]
  · have hpa : layerPathsMatch pkgPath a = true := List.find?_some h₁
    have hma : a ∈ l₁ := List.mem_of_find?_eq_some h₁
    rcases h₂ : l₂.find? (fun e => layerPathsMatch pkgPath e) with _ | b
    · exact absurd hpa (List.find?_eq_none.mp h₂ a (hperm.mem_iff.mp hma))
    · have hpb : layerPathsMatch pkgPath b = true := List.find?_some h₂
      have hmb : b ∈ l₁ := hperm.mem_iff.mpr (List.mem_of_find?_eq_some h₂)
      rw [huniq a hma b hmb hpa hpb]

/-- C8 witness: a unit matching only the `domain` layer's patterns is
classified identically under the two iteration orders of a two-layer
configuration. -/
theorem c8_witness :
    List.Perm [layerA, layerB] [layerB, layerA] ∧
    (∀ a ∈ [layerA, layerB], ∀ b ∈ [layerA, layerB],
      layerPathsMatch "m/domain".toList a = true →
        layerPathsMatch "m/domain".toList b = true → a = b) ∧
    (getLayerForPackage "m/domain".toList "domain".toList [layerA, layerB]).1 =
      (getLayerForPackage "m/domain".toList "domain".toList [layerB, layerA]).1 :=
  ⟨List.Perm.swap layerB layerA [], by decide,
   c8_classification_deterministic "m/domain".toList "domain".toList
     [layerA, layerB] [layerB, layerA]
     (List.Perm.swap layerB layerA []) (by decide)⟩
